import Mathlib

/-!
Verification of the git-ai attribution engine against its sources:
line-diff based added-line resolution (tests/diff_comparison.rs),
the GitLab CI context resolver (src/ci/gitlab.rs) and
clone-target extraction (src/commands/hooks/clone_hooks.rs).
-/

/-! ## Line tokenization and the Diff Oracle -/

/-- Modelled from the spec: the Diff Oracle tokenization contract (section 4.1) of the
external line-diff library, which is not part of the sources: a text is split strictly
on newline characters, and a final unterminated line is preserved as its own token. -/
def splitLinesAux : List Char → List Char → List (List Char)
  | [], acc => if acc.isEmpty then [] else [acc.reverse]
  | c :: rest, acc =>
    if c = '\n' then acc.reverse :: splitLinesAux rest []
    else splitLinesAux rest (c :: acc)

/-- Split a text into its newline-delimited lines (tokens). -/
def splitLines (s : String) : List (List Char) :=
  splitLinesAux s.data []

/-- Number of newline-delimited lines of a text. -/
def lineCount (s : String) : Nat :=
  (splitLines s).length

/-- The tag of one line-level edit operation, mirroring the external diff library
(similar::ChangeTag) used by tests/diff_comparison.rs. -/
inductive ChangeTag
  | Delete
  | Insert
  | Equal
deriving DecidableEq

/-- Modelled from the spec: one step of the Diff Oracle recursion (section 4.1), which is
provided by the external similar crate and is not part of the sources. `dxs` diffs the
tail of the old file against an arbitrary new suffix; this computes the edit script of
`x :: xs` against `ys`, taking an equality when heads agree and otherwise the shorter of
a delete-first and an insert-first script (a deterministic LCS-family minimal script). -/
def diffAux [DecidableEq α] (x : α) (xs : List α)
    (dxs : List α → List (ChangeTag × α)) : List α → List (ChangeTag × α)
  | [] => (x :: xs).map (fun a => (ChangeTag.Delete, a))
  | y :: ys =>
    if x = y then (ChangeTag.Equal, x) :: dxs ys
    else
      let d := (ChangeTag.Delete, x) :: dxs (y :: ys)
      let i := (ChangeTag.Insert, y) :: diffAux x xs dxs ys
      if d.length ≤ i.length then d else i

/-- Modelled from the spec: the Diff Oracle contract (section 4.1) — `diffLines` of the
external similar crate returns the ordered list of line-level edit operations between the
two token lists, produced by a deterministic LCS-family minimal edit script algorithm. -/
def diffL [DecidableEq α] : List α → List α → List (ChangeTag × α)
  | [], ys => ys.map (fun a => (ChangeTag.Insert, a))
  | x :: xs, ys => diffAux x xs (diffL xs) ys

/-! ## The added-line cursor walk (tests/diff_comparison.rs lines 184-203) -/

/-- The cursor walk of tests/diff_comparison.rs (lines 185-203): starting from a new-file
line cursor, a Delete contributes nothing and does not advance the cursor, an Insert
records the current cursor value and advances it, an Equal only advances it. -/
def added_lines_walk : List (ChangeTag × α) → Nat → List Nat
  | [], _ => []
  | (ChangeTag.Delete, _) :: rest, cur => added_lines_walk rest cur
  | (ChangeTag.Insert, _) :: rest, cur => cur :: added_lines_walk rest (cur + 1)
  | (ChangeTag.Equal, _) :: rest, cur => added_lines_walk rest (cur + 1)

/-- The added-line resolver: diff the two texts line-wise and walk the edit sequence
with the cursor starting at 1, as in tests/diff_comparison.rs. -/
def addedLines (old new : String) : List Nat :=
  added_lines_walk (diffL (splitLines old) (splitLines new)) 1

/-- How far an edit script advances the new-file cursor: one per Insert or Equal. -/
def new_advance : List (ChangeTag × α) → Nat
  | [] => 0
  | (ChangeTag.Delete, _) :: rest => new_advance rest
  | (_, _) :: rest => new_advance rest + 1

/-! ## GitLab CI context resolver (src/ci/gitlab.rs)

The resolver reads environment variables, performs one HTTP GET against the GitLab
API, parses the response with serde_json, and runs git subprocesses. The embedding is
a pure function of the environment, the current time (seconds; chrono formatting of
the cutoff is an input oracle `fmt`), the crate version, and a world of oracles for
the external HTTP, JSON-parsing and git capabilities. It returns the Rust result
together with the ordered trace of outward effects (HTTP requests, git invocations).
Logging via println is not observable by callers and is not modelled. -/

/-- The error type of src/error.rs as used by gitlab.rs: every failure there is built
with GitAiError::Generic carrying a message. -/
inductive GitAiError
  | Generic : String → GitAiError
deriving DecidableEq

/-- GitLab Merge Request from the API response (gitlab.rs lines 12-22). -/
structure GitLabMergeRequest where
  iid : Nat
  title : Option String
  source_branch : String
  target_branch : String
  sha : String
  merge_commit_sha : Option String
  squash_commit_sha : Option String
  squash : Option Bool
deriving DecidableEq

/-- The single CiEvent variant, Merge, of src/ci/ci_context.rs with its five fields. -/
structure CiEvent where
  merge_commit_sha : String
  head_ref : String
  head_sha : String
  base_ref : String
  base_sha : String
deriving DecidableEq

/-- The CiContext emitted by the resolver. The repository handle is opaque to the
resolver; it is modelled by the path returned by find_repository_in_path. -/
structure CiContext where
  repo : String
  event : CiEvent
  temp_dir : String
deriving DecidableEq

/-- The provider-supplied environment: each field is the value of the corresponding
environment variable, or none when it is not set. -/
structure CiEnv where
  ci_api_v4_url : Option String
  ci_project_id : Option String
  ci_commit_sha : Option String
  ci_server_url : Option String
  ci_project_path : Option String
  ci_job_token : Option String
  gitlab_token : Option String
deriving DecidableEq

/-- An HTTP response as seen through minreq: a status code and a body that is none
when it is not valid UTF-8 (minreq as_str returning Err). -/
structure HttpResp where
  status_code : Nat
  body : Option String
deriving DecidableEq

/-- The outward effects of one resolver invocation, in order: the HTTP GET request
(url, headers, timeout in seconds) and git subprocess invocations. -/
inductive CiEffect
  | httpGet (url : String) (headers : List (String × String)) (timeoutSec : Nat)
  | gitExec (args : List String)
deriving DecidableEq

/-- The ambient world: the outcome of the single minreq send, the serde_json parse of a
body (an external library, given as an oracle), the outcome of each exec_git call, and
find_repository_in_path. -/
structure CiWorld where
  http : Except String HttpResp
  json : String → Except String (List GitLabMergeRequest)
  git : List String → Except GitAiError Unit
  repoAt : String → Except GitAiError String

/-- The configuration gathered by the environment-reading prologue of
get_gitlab_ci_context (gitlab.rs lines 29-61). -/
structure EnvCfg where
  api_url : String
  project_id : String
  commit_sha : String
  server_url : String
  project_path : String
  auth_header_name : String
  auth_token : String
deriving DecidableEq

/-- gitlab.rs lines 29-61: read the five required variables, erroring on the first
missing one, then pick the auth token, preferring CI_JOB_TOKEN over GITLAB_TOKEN and
erroring when neither is set. -/
def read_env_config (env : CiEnv) : Except GitAiError EnvCfg :=
  match env.ci_api_v4_url with
  | none => .error (.Generic "CI_API_V4_URL environment variable not set")
  | some api_url =>
  match env.ci_project_id with
  | none => .error (.Generic "CI_PROJECT_ID environment variable not set")
  | some project_id =>
  match env.ci_commit_sha with
  | none => .error (.Generic "CI_COMMIT_SHA environment variable not set")
  | some commit_sha =>
  match env.ci_server_url with
  | none => .error (.Generic "CI_SERVER_URL environment variable not set")
  | some server_url =>
  match env.ci_project_path with
  | none => .error (.Generic "CI_PROJECT_PATH environment variable not set")
  | some project_path =>
  match env.ci_job_token with
  | some job_token =>
      .ok ⟨api_url, project_id, commit_sha, server_url, project_path, "JOB-TOKEN", job_token⟩
  | none =>
  match env.gitlab_token with
  | some gitlab_token =>
      .ok ⟨api_url, project_id, commit_sha, server_url, project_path, "PRIVATE-TOKEN", gitlab_token⟩
  | none => .error (.Generic "Neither CI_JOB_TOKEN nor GITLAB_TOKEN environment variable is set")

/-- gitlab.rs lines 63-71: the query endpoint. The cutoff is the current time minus
Duration::minutes(15), rendered by the chrono formatter oracle `fmt`. -/
def api_endpoint (cfg : EnvCfg) (now : Int) (fmt : Int → String) : String :=
  cfg.api_url ++ "/projects/" ++ cfg.project_id ++ "/merge_requests?state=merged&updated_after="
    ++ fmt (now - 15 * 60) ++ "&order_by=updated_at&sort=desc&per_page=100"

/-- gitlab.rs lines 75-80: the headers of the API request — the chosen auth header and
a User-Agent naming the tool and its crate version. -/
def request_headers (cfg : EnvCfg) (version : String) : List (String × String) :=
  [(cfg.auth_header_name, cfg.auth_token), ("User-Agent", "git-ai/" ++ version)]

/-- gitlab.rs lines 133-136: a merge request matches when its merge_commit_sha or its
squash_commit_sha equals the current commit SHA. -/
def mr_matches (commit_sha : String) (mr : GitLabMergeRequest) : Bool :=
  mr.merge_commit_sha == some commit_sha || mr.squash_commit_sha == some commit_sha

/-- gitlab.rs lines 152-170: the effective merge/squash SHA used for rewriting. -/
def effective_merge_sha (commit_sha : String) (mr : GitLabMergeRequest) : String :=
  if mr.squash_commit_sha = some commit_sha then commit_sha
  else
    match mr.squash_commit_sha with
    | some squash_sha => squash_sha
    | none => commit_sha

/-- gitlab.rs line 178: the fixed local clone directory. -/
def clone_dir : String := "git-ai-ci-clone"

/-- gitlab.rs line 179: the clone URL built from server URL and project path. -/
def clone_url_of (cfg : EnvCfg) : String :=
  cfg.server_url ++ "/" ++ cfg.project_path ++ ".git"

/-- Rust str::replace with a non-empty pattern, on char lists: replace each
non-overlapping occurrence of `pat`, scanning left to right. The fuel argument is the
length of the subject, which bounds the recursion since every step consumes at least
one character. -/
def rustReplaceGo (pat repl : List Char) : Nat → List Char → List Char
  | _, [] => []
  | 0, l => l
  | fuel + 1, c :: rest =>
    if pat.isPrefixOf (c :: rest) then repl ++ rustReplaceGo pat repl fuel ((c :: rest).drop pat.length)
    else c :: rustReplaceGo pat repl fuel rest

/-- Rust str::replace on strings: all non-overlapping occurrences of `pat` in `s` are
replaced by `repl`; an empty pattern matches at every character boundary. -/
def rustReplace (s pat repl : String) : String :=
  if pat.data.isEmpty then ⟨repl.data ++ s.data.flatMap (fun c => c :: repl.data)⟩
  else ⟨rustReplaceGo pat.data repl.data s.data.length s.data⟩

/-- Rust str::trim_start_matches on char lists: repeatedly strip the (non-empty)
pattern from the front while it is a prefix; fuel as in rustReplaceGo. -/
def trimStartGo (pat : List Char) : Nat → List Char → List Char
  | 0, s => s
  | fuel + 1, s =>
    if !pat.isEmpty && pat.isPrefixOf s then trimStartGo pat fuel (s.drop pat.length) else s

/-- Rust str::trim_start_matches on strings. -/
def trimStartMatches (s pat : String) : String :=
  ⟨trimStartGo pat.data s.data.length s.data⟩

/-- Whether one string starts with another (Rust str::starts_with). -/
def strStartsWith (s p : String) : Bool :=
  p.data.isPrefixOf s.data

/-- gitlab.rs lines 188-196 and 205-214: the scheme prefix of the rewritten URL. -/
def scheme_of (server_url : String) : String :=
  if strStartsWith server_url "https" then "https" else "http"

/-- gitlab.rs lines 194-197 and 211-214: the server URL with its scheme stripped. -/
def strip_scheme (server_url : String) : String :=
  trimStartMatches (trimStartMatches server_url "https://") "http://"

/-- gitlab.rs lines 184-198 and 201-215: rewrite the clone URL so that the server part
carries an embedded credential for the given conventional user name. -/
def credentialed_url (user_name token server_url clone_url : String) : String :=
  rustReplace clone_url server_url
    (scheme_of server_url ++ "://" ++ user_name ++ ":" ++ token ++ "@" ++ strip_scheme server_url)

/-- gitlab.rs lines 182-218: authenticate the clone URL with CI_JOB_TOKEN (user
gitlab-ci-token) or GITLAB_TOKEN (user oauth2), falling back to the bare clone URL
when neither variable is set. -/
def authenticated_url (env : CiEnv) (cfg : EnvCfg) : String :=
  match env.ci_job_token with
  | some job_token => credentialed_url "gitlab-ci-token" job_token cfg.server_url (clone_url_of cfg)
  | none =>
    match env.gitlab_token with
    | some gitlab_token => credentialed_url "oauth2" gitlab_token cfg.server_url (clone_url_of cfg)
    | none => clone_url_of cfg

/-- gitlab.rs lines 221-227: the argument vector of the clone subprocess. -/
def clone_args (target_branch url : String) : List String :=
  ["clone", "--branch", target_branch, url, clone_dir]

/-- gitlab.rs lines 232-241: the argument vector of the fetch of the merge-request ref. -/
def fetch_args (url : String) (iid : Nat) : List String :=
  ["-C", clone_dir, "fetch", url,
    "refs/merge-requests/" ++ toString iid ++ "/head:refs/gitlab/mr/" ++ toString iid]

/-- gitlab.rs lines 250-260: the CiContext built for the matched merge request.
base_sha is left empty (not readily available from the MR API). -/
def emitted_context (commit_sha repo : String) (mr : GitLabMergeRequest) : CiContext :=
  { repo := repo
  , event :=
    { merge_commit_sha := effective_merge_sha commit_sha mr
    , head_ref := mr.source_branch
    , head_sha := mr.sha
    , base_ref := mr.target_branch
    , base_sha := "" }
  , temp_dir := clone_dir }

/-- gitlab.rs lines 27-261: the whole resolver, returning the Rust result together
with the ordered trace of outward effects. -/
def get_gitlab_ci_context (env : CiEnv) (now : Int) (fmt : Int → String) (version : String)
    (w : CiWorld) : Except GitAiError (Option CiContext) × List CiEffect :=
  match read_env_config env with
  | .error e => (.error e, [])
  | .ok cfg =>
    match w.http with
    | .error e =>
      (.error (.Generic ("GitLab API request failed: " ++ e)),
        [CiEffect.httpGet (api_endpoint cfg now fmt) (request_headers cfg version) 30])
    | .ok response =>
      if response.status_code ≠ 200 then
        (.error (.Generic ("GitLab API returned status " ++ toString response.status_code ++ ": "
          ++ response.body.getD "unknown error")),
          [CiEffect.httpGet (api_endpoint cfg now fmt) (request_headers cfg version) 30])
      else
        match w.json (response.body.getD "[]") with
        | .error e =>
          (.error (.Generic ("Failed to parse GitLab API response: " ++ e)),
            [CiEffect.httpGet (api_endpoint cfg now fmt) (request_headers cfg version) 30])
        | .ok merge_requests =>
          match merge_requests.find? (mr_matches cfg.commit_sha) with
          | none =>
            (.ok none,
              [CiEffect.httpGet (api_endpoint cfg now fmt) (request_headers cfg version) 30])
          | some mr =>
            match w.git (clone_args mr.target_branch (authenticated_url env cfg)) with
            | .error e =>
              (.error e,
                [CiEffect.httpGet (api_endpoint cfg now fmt) (request_headers cfg version) 30,
                  CiEffect.gitExec (clone_args mr.target_branch (authenticated_url env cfg))])
            | .ok _ =>
              match w.git (fetch_args (authenticated_url env cfg) mr.iid) with
              | .error e =>
                (.error e,
                  [CiEffect.httpGet (api_endpoint cfg now fmt) (request_headers cfg version) 30,
                    CiEffect.gitExec (clone_args mr.target_branch (authenticated_url env cfg)),
                    CiEffect.gitExec (fetch_args (authenticated_url env cfg) mr.iid)])
              | .ok _ =>
                match w.repoAt clone_dir with
                | .error e =>
                  (.error e,
                    [CiEffect.httpGet (api_endpoint cfg now fmt) (request_headers cfg version) 30,
                      CiEffect.gitExec (clone_args mr.target_branch (authenticated_url env cfg)),
                      CiEffect.gitExec (fetch_args (authenticated_url env cfg) mr.iid)])
                | .ok repo =>
                  (.ok (some (emitted_context cfg.commit_sha repo mr)),
                    [CiEffect.httpGet (api_endpoint cfg now fmt) (request_headers cfg version) 30,
                      CiEffect.gitExec (clone_args mr.target_branch (authenticated_url env cfg)),
                      CiEffect.gitExec (fetch_args (authenticated_url env cfg) mr.iid)])

/-- The HTTP requests contained in an effect trace. -/
def http_requests (t : List CiEffect) : List CiEffect :=
  t.filter fun e =>
    match e with
    | .httpGet _ _ _ => true
    | .gitExec _ => false

/-- The credential-bearing shape of the authenticated clone URL, phrased by cases on
the two token variables: with a job token the gitlab-ci-token form, otherwise with a
personal token the oauth2 form; with neither token set no shape is admissible. -/
def credentialed_form (env : CiEnv) (cfg : EnvCfg) : Prop :=
  match env.ci_job_token, env.gitlab_token with
  | some t, _ => authenticated_url env cfg = credentialed_url "gitlab-ci-token" t cfg.server_url (clone_url_of cfg)
  | none, some t => authenticated_url env cfg = credentialed_url "oauth2" t cfg.server_url (clone_url_of cfg)
  | none, none => False

/-- The auth header choice phrased by cases on the two token variables: JOB-TOKEN with
the job token value when CI_JOB_TOKEN is set, PRIVATE-TOKEN with the personal token
value otherwise; with neither set no request configuration exists. -/
def auth_header_spec (env : CiEnv) (cfg : EnvCfg) : Prop :=
  match env.ci_job_token, env.gitlab_token with
  | some t, _ => cfg.auth_header_name = "JOB-TOKEN" ∧ cfg.auth_token = t
  | none, some t => cfg.auth_header_name = "PRIVATE-TOKEN" ∧ cfg.auth_token = t
  | none, none => False

/-! ## Clone-target extraction (src/commands/hooks/clone_hooks.rs) -/

/-- Whether one string contains a character (Rust str::contains with a char pattern). -/
def strContainsChar (s : String) (c : Char) : Bool :=
  s.data.contains c

/-- clone_hooks.rs lines 144-177: whether an argument is an option that takes a value. -/
def is_option_with_value (arg : String) : Bool :=
  if strStartsWith arg "--" then
    if strContainsChar arg '=' then false
    else
      (["--branch", "--config", "--depth", "--origin", "--reference",
        "--reference-if-able", "--separate-git-dir", "--shallow-exclude",
        "--shallow-since", "--template", "--upload-pack", "-u", "--jobs", "-j",
        "--recurse-submodules"] : List String).contains arg
  else if strStartsWith arg "-" && arg.utf8ByteSize == 2 then
    (["-b", "-c", "-j", "-o", "-u"] : List String).contains arg
  else false

/-- clone_hooks.rs lines 59-91: the scanning loop collecting positional arguments.
Before a bare double dash, a double dash switches the flag, an option with a value
skips itself and the following argument, and any other dash-led argument is skipped;
everything else, and everything after the double dash, is positional. -/
def collect_positionals : Bool → List String → List String
  | _, [] => []
  | after_double_dash, arg :: rest =>
    if after_double_dash = false then
      if arg = "--" then collect_positionals true rest
      else if is_option_with_value arg then
        match rest with
        | [] => []
        | _ :: rest2 => collect_positionals false rest2
      else if strStartsWith arg "-" then collect_positionals false rest
      else arg :: collect_positionals after_double_dash rest
    else arg :: collect_positionals after_double_dash rest

/-- Remove all trailing slash characters (Rust trim_end_matches with a slash). -/
def trimEndSlashes (l : List Char) : List Char :=
  (l.reverse.dropWhile (fun c => c == '/')).reverse

/-- The segment after the last occurrence of `sep` (Rust rfind plus slicing). -/
def lastComponentAfter (sep : Char) (l : List Char) : List Char :=
  (l.reverse.takeWhile (fun c => !(c == sep))).reverse

/-- clone_hooks.rs lines 110-140: derive the target directory name from a repository
URL — drop trailing slashes, take the segment after the last slash (or, failing that,
after the last colon of an SCP-like URL), reject an empty segment, strip a trailing
.git suffix, and reject an empty remainder. -/
def derive_directory_from_url (url : String) : Option String :=
  let u := trimEndSlashes url.data
  let last_component :=
    if u.contains '/' then lastComponentAfter '/' u
    else if u.contains ':' then lastComponentAfter ':' u
    else u
  if last_component.isEmpty then none
  else
    let dir_name :=
      if (".git" : String).data.isSuffixOf last_component then last_component.take (last_component.length - 4)
      else last_component
    if dir_name.isEmpty then none else some (String.mk dir_name)

/-- clone_hooks.rs lines 59-106: extract the clone target directory — the second
positional argument when present, the directory derived from the URL when only the
URL is present, and none when there is no positional argument. -/
def extract_clone_target_directory (args : List String) : Option String :=
  match collect_positionals false args with
  | [] => none
  | [repo_url] => derive_directory_from_url repo_url
  | _ :: dir :: _ => some dir

/-- The derivation rule exactly as the claim states it: the last path component of the
URL — the part after the final slash — once trailing slashes are removed, stripped of
a trailing .git suffix, and none when the resulting component is empty. -/
def claim_derive_directory (url : String) : Option String :=
  let u := trimEndSlashes url.data
  let comp := if u.contains '/' then lastComponentAfter '/' u else u
  let name :=
    if (".git" : String).data.isSuffixOf comp then comp.take (comp.length - 4) else comp
  if name.isEmpty then none else some (String.mk name)

/-- The amended derivation rule: as the claim states it, except that for a URL with no
slash the component after the final colon is used (SCP-like syntax). -/
def amended_derive_directory (url : String) : Option String :=
  let u := trimEndSlashes url.data
  let comp :=
    if u.contains '/' then lastComponentAfter '/' u
    else if u.contains ':' then lastComponentAfter ':' u
    else u
  let name :=
    if (".git" : String).data.isSuffixOf comp then comp.take (comp.length - 4) else comp
  if name.isEmpty then none else some (String.mk name)

/-! ## Concrete fixtures used by the witness theorems -/

/-- A merged MR whose merge commit is X and whose squash commit is Y. -/
def mrW : GitLabMergeRequest :=
  { iid := 7, title := some "t", source_branch := "feat", target_branch := "main"
  , sha := "H", merge_commit_sha := some "X", squash_commit_sha := some "Y"
  , squash := some true }

/-- A merged MR matching no commit of interest. -/
def mrN : GitLabMergeRequest :=
  { iid := 8, title := none, source_branch := "other", target_branch := "main"
  , sha := "K", merge_commit_sha := some "M", squash_commit_sha := none
  , squash := none }

/-- A fully configured CI environment whose current commit is X, with a job token. -/
def envW : CiEnv :=
  { ci_api_v4_url := some "https://gl/api/v4", ci_project_id := some "42"
  , ci_commit_sha := some "X", ci_server_url := some "https://gl"
  , ci_project_path := some "g/p", ci_job_token := some "tok", gitlab_token := none }

/-- The configuration read from envW. -/
def cfgW : EnvCfg :=
  ⟨"https://gl/api/v4", "42", "X", "https://gl", "g/p", "JOB-TOKEN", "tok"⟩

/-- A fully configured environment with neither credential variable set. -/
def envN : CiEnv :=
  { ci_api_v4_url := some "https://gl/api/v4", ci_project_id := some "42"
  , ci_commit_sha := some "X", ci_server_url := some "https://gl"
  , ci_project_path := some "g/p", ci_job_token := none, gitlab_token := none }

/-- A concrete stand-in for the chrono cutoff formatter. -/
def fmtW : Int → String := fun _ => "2026-01-01T00:00:00Z"

/-- A world where the API returns status 200 with one matching MR and git succeeds. -/
def wW : CiWorld :=
  { http := .ok ⟨200, some "body"⟩
  , json := fun _ => .ok [mrW]
  , git := fun _ => .ok ()
  , repoAt := fun _ => .ok "repo" }

/-- A world where the API returns status 200 with one non-matching MR. -/
def wN : CiWorld :=
  { http := .ok ⟨200, some "body"⟩
  , json := fun _ => .ok [mrN]
  , git := fun _ => .ok ()
  , repoAt := fun _ => .ok "repo" }

/-- Decidable equality on Except, needed to evaluate resolver outcomes. -/
instance {ε α : Type} [DecidableEq ε] [DecidableEq α] : DecidableEq (Except ε α) := fun a b =>
  match a, b with
  | .error e, .error f =>
    if h : e = f then .isTrue (by rw [h]) else .isFalse (by intro hc; cases hc; exact h rfl)
  | .error _, .ok _ => .isFalse (by intro hc; cases hc)
  | .ok _, .error _ => .isFalse (by intro hc; cases hc)
  | .ok x, .ok y =>
    if h : x = y then .isTrue (by rw [h]) else .isFalse (by intro hc; cases hc; exact h rfl)

/-! ## Theorems: the added-line resolver (C3, C4, C5) -/

theorem new_advance_map_delete (l : List α) :
    new_advance (l.map (fun a => (ChangeTag.Delete, a))) = 0 := by
  induction l with
  | nil => rfl
  | cons x xs ih => simpa [new_advance] using ih

theorem new_advance_map_insert (l : List α) :
    new_advance (l.map (fun a => (ChangeTag.Insert, a))) = l.length := by
  induction l with
  | nil => rfl
  | cons x xs ih => simp [new_advance, ih]

theorem new_advance_diffAux [DecidableEq α] (x : α) (xs : List α)
    (dxs : List α → List (ChangeTag × α))
    (hd : ∀ ys, new_advance (dxs ys) = ys.length) :
    ∀ ys, new_advance (diffAux x xs dxs ys) = ys.length := by
  intro ys
  induction ys with
  | nil => simp [diffAux, new_advance, new_advance_map_delete]
  | cons y ys ih =>
    by_cases h : x = y
    · simp [diffAux, h, new_advance, hd]
    · simp only [diffAux, if_neg h]
      split
      · simp [new_advance, hd]
      · simp [new_advance, ih]

theorem new_advance_diffL [DecidableEq α] (xs ys : List α) :
    new_advance (diffL xs ys) = ys.length := by
  induction xs generalizing ys with
  | nil => simp [diffL, new_advance_map_insert]
  | cons x xs ih => exact new_advance_diffAux x xs (diffL xs) ih ys

theorem added_lines_walk_bounds (script : List (ChangeTag × α)) :
    ∀ cur n, n ∈ added_lines_walk script cur → cur ≤ n ∧ n < cur + new_advance script := by
  induction script with
  | nil => intro cur n h; simp [added_lines_walk] at h
  | cons e rest ih =>
    intro cur n h
    obtain ⟨tag, a⟩ := e
    cases tag with
    | Delete =>
      have := ih cur n (by simpa [added_lines_walk] using h)
      simpa [new_advance] using this
    | Insert =>
      simp only [added_lines_walk, List.mem_cons] at h
      rcases h with rfl | h
      · simp only [new_advance]; omega
      · have := ih (cur + 1) n h
        simp only [new_advance] at *
        omega
    | Equal =>
      have := ih (cur + 1) n (by simpa [added_lines_walk] using h)
      simp only [new_advance] at *
      omega

theorem diffL_self [DecidableEq α] (l : List α) :
    diffL l l = l.map (fun a => (ChangeTag.Equal, a)) := by
  induction l with
  | nil => rfl
  | cons x xs ih => simp [diffL, diffAux, ih]

theorem walk_map_equal (l : List α) (c : Nat) :
    added_lines_walk (l.map (fun a => (ChangeTag.Equal, a))) c = [] := by
  induction l generalizing c with
  | nil => rfl
  | cons x xs ih => simp [added_lines_walk, ih]

theorem walk_map_insert (l : List α) (c : Nat) :
    added_lines_walk (l.map (fun a => (ChangeTag.Insert, a))) c = List.range' c l.length := by
  induction l generalizing c with
  | nil => rfl
  | cons x xs ih => simp [added_lines_walk, List.range', ih]

/-- C3: for old text "A\nB\nC" and new text "A\nX\nB\nC\nD", the cursor walk over the
line-diff edit sequence returns exactly the set of line numbers 2 and 5. -/
theorem C3_end_to_end_scenario :
    addedLines "A\nB\nC" "A\nX\nB\nC\nD" = [2, 5] ∧
    (addedLines "A\nB\nC" "A\nX\nB\nC\nD").toFinset = ({2, 5} : Finset Nat) := by
  constructor <;> decide

/-- C4: for every pair of texts, every line number produced by the added-line resolver
lies within 1 and the line count of the new text. -/
theorem C4_added_lines_in_range (A B : String) (n : Nat) (h : n ∈ addedLines A B) :
    1 ≤ n ∧ n ≤ lineCount B := by
  have hb := added_lines_walk_bounds (diffL (splitLines A) (splitLines B)) 1 n h
  have ha := new_advance_diffL (splitLines A) (splitLines B)
  unfold lineCount
  omega

/-- Witness for C4 at a concrete input: 1 is an added line of "" versus "x". -/
theorem C4_witness : 1 ≤ 1 ∧ 1 ≤ lineCount "x" :=
  C4_added_lines_in_range "" "x" 1 (by decide)

/-- C5: the added-line resolver yields the empty set on identical texts and, on an
empty old text, the full ascending run of line numbers 1 to lineCount of the new text. -/
theorem C5_identity_and_empty_base :
    (∀ A : String, addedLines A A = []) ∧
    (∀ B : String, addedLines "" B = List.range' 1 (lineCount B)) := by
  constructor
  · intro A
    unfold addedLines
    rw [diffL_self]
    exact walk_map_equal _ 1
  · intro B
    unfold addedLines lineCount
    show added_lines_walk ((splitLines B).map (fun a => (ChangeTag.Insert, a))) 1 = _
    exact walk_map_insert _ 1

/-! ## Theorems: the GitLab CI context resolver (C1, C2, C6, C7, C8, C9) -/

theorem read_env_config_ok (env : CiEnv) (cfg : EnvCfg)
    (h : read_env_config env = .ok cfg) :
    env.ci_api_v4_url = some cfg.api_url ∧ env.ci_project_id = some cfg.project_id ∧
    env.ci_commit_sha = some cfg.commit_sha ∧ env.ci_server_url = some cfg.server_url ∧
    env.ci_project_path = some cfg.project_path ∧ auth_header_spec env cfg := by
  unfold read_env_config at h
  split at h
  · simp at h
  · split at h
    · simp at h
    · split at h
      · simp at h
      · split at h
        · simp at h
        · split at h
          · simp at h
          · split at h
            · cases h
              simp_all [auth_header_spec]
            · split at h
              · cases h
                simp_all [auth_header_spec]
              · simp at h

theorem run_ok_some_shape (env : CiEnv) (now : Int) (fmt : Int → String) (version : String)
    (w : CiWorld) (ctx : CiContext)
    (h : (get_gitlab_ci_context env now fmt version w).1 = .ok (some ctx)) :
    ∃ cfg resp mrs mr repo,
      read_env_config env = .ok cfg ∧ w.http = .ok resp ∧ resp.status_code = 200 ∧
      w.json (resp.body.getD "[]") = .ok mrs ∧
      mrs.find? (mr_matches cfg.commit_sha) = some mr ∧
      w.repoAt clone_dir = .ok repo ∧
      ctx = emitted_context cfg.commit_sha repo mr := by
  unfold get_gitlab_ci_context at h
  split at h
  · simp at h
  next cfg hcfg =>
    split at h
    · simp at h
    next resp hresp =>
      split at h
      · simp at h
      next hstatus =>
        split at h
        · simp at h
        next mrs hjson =>
          split at h
          · simp at h
          next mr hfind =>
            split at h
            · simp at h
            split at h
            · simp at h
            split at h
            · simp at h
            next repo hrepo =>
              simp at h
              exact ⟨cfg, resp, mrs, mr, repo, hcfg, hresp, by omega, hjson, hfind, hrepo, h.symm⟩

theorem run_git_effect_shape (env : CiEnv) (now : Int) (fmt : Int → String) (version : String)
    (w : CiWorld) (args : List String)
    (h : CiEffect.gitExec args ∈ (get_gitlab_ci_context env now fmt version w).2) :
    ∃ (cfg : EnvCfg) (mr : GitLabMergeRequest), read_env_config env = .ok cfg ∧
      (args = clone_args mr.target_branch (authenticated_url env cfg) ∨
       args = fetch_args (authenticated_url env cfg) mr.iid) := by
  unfold get_gitlab_ci_context at h
  split at h
  · simp at h
  next cfg hcfg =>
    split at h
    · simp at h
    next resp hresp =>
      split at h
      · simp at h
      next hstatus =>
        split at h
        · simp at h
        next mrs hjson =>
          split at h
          · simp at h
          next mr hfind =>
            split at h
            · simp at h
              exact ⟨cfg, mr, hcfg, .inl h⟩
            split at h
            · simp at h
              rcases h with h | h
              · exact ⟨cfg, mr, hcfg, .inl h⟩
              · exact ⟨cfg, mr, hcfg, .inr h⟩
            split at h
            · simp at h
              rcases h with h | h
              · exact ⟨cfg, mr, hcfg, .inl h⟩
              · exact ⟨cfg, mr, hcfg, .inr h⟩
            · simp at h
              rcases h with h | h
              · exact ⟨cfg, mr, hcfg, .inl h⟩
              · exact ⟨cfg, mr, hcfg, .inr h⟩

theorem find?_first {α : Type} (p : α → Bool) (l : List α) (a : α)
    (h : l.find? p = some a) :
    ∃ i, ∃ hi : i < l.length, l.get ⟨i, hi⟩ = a ∧ p a = true ∧
      ∀ j (hj : j < i), p (l.get ⟨j, Nat.lt_trans hj hi⟩) = false := by
  induction l with
  | nil => simp [List.find?] at h
  | cons x xs ih =>
    cases hp : p x with
    | true =>
      rw [List.find?_cons_of_pos _ hp] at h
      injection h with ha
      subst ha
      exact ⟨0, by simp, rfl, hp, fun j hj => absurd hj (Nat.not_lt_zero j)⟩
    | false =>
      rw [List.find?_cons_of_neg _ (by simp [hp])] at h
      obtain ⟨i, hi, hget, hpa, hbef⟩ := ih h
      refine ⟨i + 1, by simpa using Nat.succ_lt_succ hi, by simpa using hget, hpa, ?_⟩
      intro j hj
      cases j with
      | zero => simpa using hp
      | succ j =>
        have := hbef j (Nat.lt_of_succ_lt_succ hj)
        simpa using this

/-- C1: when the emitted context exists and the matched record carries both a merge
commit X equal to the current commit and a squash commit Y, the effective rewrite
target (the merge_commit_sha of the emitted CiContext) is Y; when the current commit
equals the squash commit, or the record has no squash commit, it is the current
commit itself. -/
theorem C1_squash_disambiguation (env : CiEnv) (now : Int) (fmt : Int → String)
    (version : String) (w : CiWorld) (ctx : CiContext) (cfg : EnvCfg)
    (resp : HttpResp) (mrs : List GitLabMergeRequest) (mr : GitLabMergeRequest) (y : String)
    (hcfg : read_env_config env = .ok cfg)
    (hhttp : w.http = .ok resp)
    (hjson : w.json (resp.body.getD "[]") = .ok mrs)
    (hfind : mrs.find? (mr_matches cfg.commit_sha) = some mr)
    (hrun : (get_gitlab_ci_context env now fmt version w).1 = .ok (some ctx)) :
    (mr.merge_commit_sha = some cfg.commit_sha → mr.squash_commit_sha = some y →
      ctx.event.merge_commit_sha = y)
    ∧ (mr.squash_commit_sha = some cfg.commit_sha →
      ctx.event.merge_commit_sha = cfg.commit_sha)
    ∧ (mr.squash_commit_sha = none →
      ctx.event.merge_commit_sha = cfg.commit_sha) := by
  obtain ⟨cfg2, resp2, mrs2, mr2, repo, hcfg2, hhttp2, hst2, hjson2, hfind2, hrepo2, hctx⟩ :=
    run_ok_some_shape env now fmt version w ctx hrun
  rw [hcfg] at hcfg2
  injection hcfg2 with hc
  subst hc
  rw [hhttp] at hhttp2
  injection hhttp2 with hr
  subst hr
  rw [hjson] at hjson2
  injection hjson2 with hm
  subst hm
  rw [hfind] at hfind2
  injection hfind2 with hmr
  subst hmr
  subst hctx
  refine ⟨?_, ?_, ?_⟩
  · intro hmerge hsq
    by_cases hy : y = cfg.commit_sha
    · simp [emitted_context, effective_merge_sha, hsq, hy]
    · simp [emitted_context, effective_merge_sha, hsq, hy]
  · intro hsq
    simp [emitted_context, effective_merge_sha, hsq]
  · intro hsq
    simp [emitted_context, effective_merge_sha, hsq]

/-- Witness for C1: in the concrete fixture the current commit X matches the merge
commit while the squash commit is Y, and the emitted context rewrites to Y. -/
theorem C1_witness : (emitted_context "X" "repo" mrW).event.merge_commit_sha = "Y" :=
  (C1_squash_disambiguation envW 0 fmtW "1.0.0" wW (emitted_context "X" "repo" mrW) cfgW
    ⟨200, some "body"⟩ [mrW] mrW "Y" rfl rfl rfl (by decide) (by decide)).1 rfl rfl

/-- C2: among the provider's records the first one (in list order) whose merge or
squash commit equals the current commit is selected, and when none matches the
resolver returns Ok(None) rather than an error. -/
theorem C2_first_match_or_none (env : CiEnv) (now : Int) (fmt : Int → String)
    (version : String) (w : CiWorld) (cfg : EnvCfg) (resp : HttpResp)
    (mrs : List GitLabMergeRequest)
    (hcfg : read_env_config env = .ok cfg)
    (hhttp : w.http = .ok resp)
    (hstatus : resp.status_code = 200)
    (hjson : w.json (resp.body.getD "[]") = .ok mrs) :
    (mrs.find? (mr_matches cfg.commit_sha) = none →
      (get_gitlab_ci_context env now fmt version w).1 = .ok none)
    ∧ (∀ ctx : CiContext, (get_gitlab_ci_context env now fmt version w).1 = .ok (some ctx) →
      ∃ i, ∃ hi : i < mrs.length,
        mr_matches cfg.commit_sha (mrs.get ⟨i, hi⟩) = true ∧
        (∀ j (hj : j < i), mr_matches cfg.commit_sha (mrs.get ⟨j, Nat.lt_trans hj hi⟩) = false) ∧
        ctx.event.head_sha = (mrs.get ⟨i, hi⟩).sha ∧
        ctx.event.head_ref = (mrs.get ⟨i, hi⟩).source_branch ∧
        ctx.event.base_ref = (mrs.get ⟨i, hi⟩).target_branch) := by
  constructor
  · intro hfind
    simp [get_gitlab_ci_context, hcfg, hhttp, hstatus, hjson, hfind]
  · intro ctx hrun
    obtain ⟨cfg2, resp2, mrs2, mr, repo, hcfg2, hhttp2, hst2, hjson2, hfind2, hrepo2, hctx⟩ :=
      run_ok_some_shape env now fmt version w ctx hrun
    rw [hcfg] at hcfg2
    injection hcfg2 with hc
    subst hc
    rw [hhttp] at hhttp2
    injection hhttp2 with hr
    subst hr
    rw [hjson] at hjson2
    injection hjson2 with hm
    subst hm
    obtain ⟨i, hi, hget, hpa, hbef⟩ := find?_first _ _ _ hfind2
    subst hctx
    exact ⟨i, hi, by rw [hget]; exact hpa, hbef,
      by simp [emitted_context, ← hget],
      by simp [emitted_context, ← hget],
      by simp [emitted_context, ← hget]⟩

/-- Witness for C2: with one non-matching record the resolver returns Ok(None). -/
theorem C2_witness : (get_gitlab_ci_context envW 0 fmtW "1.0.0" wN).1 = .ok none :=
  (C2_first_match_or_none envW 0 fmtW "1.0.0" wN cfgW ⟨200, some "body"⟩ [mrN]
    rfl rfl rfl rfl).1 (by decide)

/-- C6: with the five required variables set but neither credential variable set, the
resolver returns the configuration error for missing tokens and emits no effect at
all — in particular no network request. -/
theorem C6_missing_credentials (env : CiEnv) (now : Int) (fmt : Int → String)
    (version : String) (w : CiWorld) (a pid sha srv pp : String)
    (h1 : env.ci_api_v4_url = some a) (h2 : env.ci_project_id = some pid)
    (h3 : env.ci_commit_sha = some sha) (h4 : env.ci_server_url = some srv)
    (h5 : env.ci_project_path = some pp)
    (hj : env.ci_job_token = none) (hg : env.gitlab_token = none) :
    get_gitlab_ci_context env now fmt version w =
      (.error (.Generic "Neither CI_JOB_TOKEN nor GITLAB_TOKEN environment variable is set"),
        []) := by
  have hcfg : read_env_config env =
      .error (.Generic "Neither CI_JOB_TOKEN nor GITLAB_TOKEN environment variable is set") := by
    unfold read_env_config
    rw [h1, h2, h3, h4, h5, hj, hg]
  simp [get_gitlab_ci_context, hcfg]

/-- Witness for C6 at the concrete credential-free environment. -/
theorem C6_witness : get_gitlab_ci_context envN 0 fmtW "1.0.0" wW =
    (.error (.Generic "Neither CI_JOB_TOKEN nor GITLAB_TOKEN environment variable is set"),
      []) :=
  C6_missing_credentials envN 0 fmtW "1.0.0" wW
    "https://gl/api/v4" "42" "X" "https://gl" "g/p" rfl rfl rfl rfl rfl rfl rfl

/-- C7: whenever the environment reads successfully the effect trace carries exactly
one HTTP request: a GET to the merged-merge-requests endpoint with the cutoff equal
to the formatted current time minus 15 minutes (900 seconds), carrying the JOB-TOKEN
header when the job token is present and the PRIVATE-TOKEN header otherwise, plus a
User-Agent naming the tool and its version, with the 30 second timeout. -/
theorem C7_single_request_shape (env : CiEnv) (now : Int) (fmt : Int → String)
    (version : String) (w : CiWorld) (cfg : EnvCfg)
    (hcfg : read_env_config env = .ok cfg) :
    http_requests (get_gitlab_ci_context env now fmt version w).2 =
      [CiEffect.httpGet
        (cfg.api_url ++ "/projects/" ++ cfg.project_id
          ++ "/merge_requests?state=merged&updated_after=" ++ fmt (now - 15 * 60)
          ++ "&order_by=updated_at&sort=desc&per_page=100")
        [(cfg.auth_header_name, cfg.auth_token), ("User-Agent", "git-ai/" ++ version)] 30]
    ∧ auth_header_spec env cfg := by
  constructor
  · unfold get_gitlab_ci_context
    repeat' split
    all_goals simp_all [http_requests, api_endpoint, request_headers]
  · exact (read_env_config_ok env cfg hcfg).2.2.2.2.2

/-- Witness for C7 at the concrete fixtures. -/
theorem C7_witness :
    http_requests (get_gitlab_ci_context envW 0 fmtW "1.0.0" wW).2 =
      [CiEffect.httpGet
        (cfgW.api_url ++ "/projects/" ++ cfgW.project_id
          ++ "/merge_requests?state=merged&updated_after=" ++ fmtW (0 - 15 * 60)
          ++ "&order_by=updated_at&sort=desc&per_page=100")
        [(cfgW.auth_header_name, cfgW.auth_token), ("User-Agent", "git-ai/" ++ "1.0.0")] 30]
    ∧ auth_header_spec envW cfgW :=
  C7_single_request_shape envW 0 fmtW "1.0.0" wW cfgW rfl

/-- C8: every CiContext the resolver emits has an empty base_sha, unconditionally. -/
theorem C8_base_sha_empty (env : CiEnv) (now : Int) (fmt : Int → String)
    (version : String) (w : CiWorld) (ctx : CiContext)
    (h : (get_gitlab_ci_context env now fmt version w).1 = .ok (some ctx)) :
    ctx.event.base_sha = "" := by
  obtain ⟨cfg, resp, mrs, mr, repo, _, _, _, _, _, _, hctx⟩ :=
    run_ok_some_shape env now fmt version w ctx h
  rw [hctx]
  rfl

/-- Witness for C8 at a concrete successful run. -/
theorem C8_witness : (emitted_context "X" "repo" mrW).event.base_sha = "" :=
  C8_base_sha_empty envW 0 fmtW "1.0.0" wW (emitted_context "X" "repo" mrW) (by decide)

/-- C9: every git subprocess the resolver invokes carries the authenticated clone URL
among its arguments, and that URL is built by the credential-embedding branch for the
job token, or else for the personal token; the unauthenticated fallback branch is
unreachable because with neither token set the resolver has already errored. -/
theorem C9_credentialed_clone_url (env : CiEnv) (now : Int) (fmt : Int → String)
    (version : String) (w : CiWorld) (args : List String) (cfg : EnvCfg)
    (hcfg : read_env_config env = .ok cfg)
    (h : CiEffect.gitExec args ∈ (get_gitlab_ci_context env now fmt version w).2) :
    authenticated_url env cfg ∈ args ∧ credentialed_form env cfg := by
  obtain ⟨cfg2, mr, hcfg2, hargs⟩ := run_git_effect_shape env now fmt version w args h
  rw [hcfg] at hcfg2
  injection hcfg2 with hc
  subst hc
  constructor
  · rcases hargs with rfl | rfl
    · simp [clone_args]
    · simp [fetch_args]
  · have hauth := (read_env_config_ok env cfg hcfg).2.2.2.2.2
    unfold auth_header_spec at hauth
    unfold credentialed_form authenticated_url
    cases hjt : env.ci_job_token with
    | some t => simp
    | none =>
      cases hgt : env.gitlab_token with
      | some t => simp
      | none =>
        rw [hjt, hgt] at hauth
        exact hauth

/-- Witness for C9 at the concrete fixture run whose clone arguments carry the
credentialed URL. -/
theorem C9_witness :
    authenticated_url envW cfgW
        ∈ clone_args "main" "https://gitlab-ci-token:tok@gl/g/p.git"
    ∧ credentialed_form envW cfgW :=
  C9_credentialed_clone_url envW 0 fmtW "1.0.0" wW
    (clone_args "main" "https://gitlab-ci-token:tok@gl/g/p.git") cfgW rfl (by decide)

/-! ## Theorems: clone-target extraction (C10) -/

theorem derive_core_eq (comp : List Char) :
    (if comp.isEmpty then none
     else
       if (if (".git" : String).data.isSuffixOf comp then comp.take (comp.length - 4)
           else comp).isEmpty
       then none
       else some (String.mk (if (".git" : String).data.isSuffixOf comp then
         comp.take (comp.length - 4) else comp)))
    = (if (if (".git" : String).data.isSuffixOf comp then comp.take (comp.length - 4)
           else comp).isEmpty
       then none
       else some (String.mk (if (".git" : String).data.isSuffixOf comp then
         comp.take (comp.length - 4) else comp))) := by
  by_cases hc : comp.isEmpty
  · have hnil : comp = [] := by simpa using hc
    subst hnil
    decide
  · simp [hc]

theorem derive_eq_amended (url : String) :
    derive_directory_from_url url = amended_derive_directory url := by
  unfold derive_directory_from_url amended_derive_directory
  exact derive_core_eq _

/-- C10 counterexample: for the single positional SCP-like URL user@host:repo.git the
code extracts repo, while the derivation rule as the claim words it — the last path
component, i.e. the part after the final slash — yields user@host:repo, so the claim
as stated fails on this input. -/
theorem C10_counterexample :
    collect_positionals false ["user@host:repo.git"] = ["user@host:repo.git"]
    ∧ extract_clone_target_directory ["user@host:repo.git"] = some "repo"
    ∧ claim_derive_directory "user@host:repo.git" = some "user@host:repo"
    ∧ extract_clone_target_directory ["user@host:repo.git"]
        ≠ claim_derive_directory "user@host:repo.git" :=
  ⟨by decide, by decide, by decide, by decide⟩

/-- C10 amended: with two or more positional arguments the second is returned; with
exactly one the directory is derived from the URL by taking the component after the
final slash — or, when the URL contains no slash, after the final colon (SCP-like
syntax) — of the URL with trailing slashes removed, stripped of a trailing .git
suffix, returning none when the remaining name is empty; with no positional argument
none is returned. -/
theorem C10_amended_extract (args : List String) :
    (collect_positionals false args = [] → extract_clone_target_directory args = none)
    ∧ (∀ url, collect_positionals false args = [url] →
        extract_clone_target_directory args = amended_derive_directory url)
    ∧ (∀ url dir rest, collect_positionals false args = url :: dir :: rest →
        extract_clone_target_directory args = some dir) := by
  refine ⟨?_, ?_, ?_⟩
  · intro h
    simp [extract_clone_target_directory, h]
  · intro url h
    simp [extract_clone_target_directory, h, derive_eq_amended]
  · intro url dir rest h
    simp [extract_clone_target_directory, h]

/-- Witness for the amended C10: a URL followed by an explicit directory yields the
directory. -/
theorem C10_witness : extract_clone_target_directory ["u", "d"] = some "d" :=
  (C10_amended_extract ["u", "d"]).2.2 "u" "d" [] (by decide)
